import Mathlib

/-!
Verification of the sn_routing sources against their natural-language
specification.  The Rust sources embedded here are:

* `src/lib.rs`    — the crate root holding the quorum and section-size
  constants (`QUORUM_NUMERATOR`, `QUORUM_DENOMINATOR`,
  `RECOMMENDED_SECTION_SIZE`, `ELDER_SIZE`);
* `src/relay.rs`  — the `RelayMap` bookkeeping for relayed contacts
  (`MAX_RELAY`, `add_ip_node`, `drop_ip_node`);
* `src/routing_node_new.rs` — the `RoutingNode` constructors (`new`,
  `zero_node`) and the cbor `encode` / `decode` wrappers.

Machine integers (`usize`) are embedded as `Nat`; the quantities involved
(map lengths, vote counts, section sizes) are far below any overflow
boundary, and the crate root forbids `arithmetic_overflow`.  Fallible Rust
functions returning `Result` are embedded as `Except`.  Rust values whose
concrete representation is irrelevant to the claims (names, endpoints,
message ids) are embedded as `Nat`.
-/

set_option linter.unusedVariables false

namespace SnRouting

/-- `src/lib.rs` line 144: quorum numerator.  Quorum is defined as having
strictly greater than `QUORUM_NUMERATOR / QUORUM_DENOMINATOR` agreement. -/
def QUORUM_NUMERATOR : Nat := 2

/-- `src/lib.rs` line 146: quorum denominator. -/
def QUORUM_DENOMINATOR : Nat := 3

/-- `src/lib.rs` line 152: recommended section size; also the split
threshold — a split happens only if both post-split sections would have at
least this number of nodes. -/
def RECOMMENDED_SECTION_SIZE : Nat := 60

/-- `src/lib.rs` line 155: number of elders per section. -/
def ELDER_SIZE : Nat := 7

/-- The integer-arithmetic quorum check described by the doc comment of
`QUORUM_NUMERATOR` in `src/lib.rs`:
`votes * QUORUM_DENOMINATOR > voters * QUORUM_NUMERATOR`. -/
def quorum_check (votes voters : Nat) : Bool :=
  votes * QUORUM_DENOMINATOR > voters * QUORUM_NUMERATOR

/-- C1: the quorum check accepts exactly when `votes * 3 > voters * 2`;
for 7 voters the accepted vote counts are exactly those with at least 5
votes, and for 4 voters exactly those with at least 3 votes. -/
theorem c1_quorum_check_iff (v n : Nat) :
    (quorum_check v n = true ↔ v * 3 > n * 2) ∧
    (quorum_check v 7 = true ↔ 5 ≤ v) ∧
    (quorum_check v 4 = true ↔ 3 ≤ v) := by
  refine ⟨?_, ?_, ?_⟩ <;>
    · simp only [quorum_check, QUORUM_NUMERATOR, QUORUM_DENOMINATOR,
        decide_eq_true_eq]
      try omega

/-- C2: quorum intersection.  If two subsets `A`, `B` of a voter set `V`
both pass the implemented quorum check against `V.card`, then they share a
voter.  This is the safety property guaranteed by the constant constraint
`QUORUM_NUMERATOR * 2 >= QUORUM_DENOMINATOR` asserted by the crate's
`quorum_check` test. -/
theorem c2_quorum_intersection {α : Type} [DecidableEq α]
    (V A B : Finset α) (hA : A ⊆ V) (hB : B ⊆ V)
    (hqA : quorum_check A.card V.card = true)
    (hqB : quorum_check B.card V.card = true) :
    (A ∩ B).Nonempty := by
  simp only [quorum_check, QUORUM_NUMERATOR, QUORUM_DENOMINATOR,
    decide_eq_true_eq] at hqA hqB
  have hunion : (A ∪ B).card ≤ V.card :=
    Finset.card_le_card (Finset.union_subset hA hB)
  have hsum : (A ∪ B).card + (A ∩ B).card = A.card + B.card :=
    Finset.card_union_add_card_inter A B
  have hpos : 0 < (A ∩ B).card := by omega
  exact Finset.card_pos.mp hpos

/-- Witness for C2: among 7 voters, two quorums of 5 intersect. -/
theorem c2_quorum_intersection_witness :
    ((({0, 1, 2, 3, 4} : Finset (Fin 7)) ∩ ({2, 3, 4, 5, 6} : Finset (Fin 7))).Nonempty) :=
  c2_quorum_intersection Finset.univ {0, 1, 2, 3, 4} {2, 3, 4, 5, 6}
    (by decide) (by decide) (by decide) (by decide)

/-- C8: the per-section elder target `ELDER_SIZE` equals 7. -/
theorem c8_elder_size : ELDER_SIZE = 7 := rfl

/-!
Embedding of `src/relay.rs`.  `NameType` and `Endpoint` are embedded as
`Nat`; `PublicId` carries only the field the relay code reads, its name
(the source accesses it both as `their_info.name` and as
`relay_info.fob.name`; both identifier spellings refer to the name of the
`relay_info` argument, the only `PublicId` in scope).  The `BTreeMap` of
the source is embedded as an association list with distinct keys and the
per-name `BTreeSet<Endpoint>` as a duplicate-free list. -/

/-- The name type of the relay module, `NameType`. -/
abbrev NameType := Nat

/-- Endpoints (`crust::Endpoint`). -/
abbrev Endpoint := Nat

/-- `types::PublicId` as used by `relay.rs`: only its name is read. -/
structure PublicId where
  name : NameType
deriving DecidableEq, Repr

/-- `src/relay.rs` line 28: limit on the number of active relay nodes. -/
def MAX_RELAY : Nat := 5

/-- `src/relay.rs`: the `RelayMap` struct.  `relay_map` maps a name to the
`PublicId` and the set of endpoints stored for it; `lookup_map` maps an
endpoint back to a name; `our_id` is our own name. -/
structure RelayMap where
  relay_map : List (NameType × (PublicId × List Endpoint))
  lookup_map : List (Endpoint × NameType)
  our_id : NameType
deriving DecidableEq, Repr

namespace RelayMap

/-- `RelayMap::new`: empty maps, remembering `our_id`. -/
def new (our_id : NameType) : RelayMap :=
  { relay_map := [], lookup_map := [], our_id := our_id }

/-- `BTreeMap::contains_key` on the embedded association list. -/
def containsKey (l : List (NameType × (PublicId × List Endpoint)))
    (name : NameType) : Bool :=
  l.any fun p => p.1 = name

/-- `BTreeSet::insert`: add the endpoint if it is not already present. -/
def set_insert (eps : List Endpoint) (ep : Endpoint) : List Endpoint :=
  if ep ∈ eps then eps else eps ++ [ep]

/-- `BTreeMap::entry(name).or_insert_with(new_set)` followed by inserting
`ep` into the entry's endpoint set: if `name` has an entry, insert `ep`
into its endpoint set (keeping its stored `PublicId`); otherwise append a
fresh entry `(name, (info, {ep}))`. -/
def entry_insert (l : List (NameType × (PublicId × List Endpoint)))
    (name : NameType) (info : PublicId) (ep : Endpoint) :
    List (NameType × (PublicId × List Endpoint)) :=
  match l with
  | [] => [(name, (info, [ep]))]
  | (k, (f, eps)) :: t =>
      if k = name then (k, (f, set_insert eps ep)) :: t
      else (k, (f, eps)) :: entry_insert t name info ep

/-- `RelayMap::add_ip_node` (`src/relay.rs` lines 68-85): reject our own
id; reject when the name is new and the map already holds `MAX_RELAY`
entries; otherwise record the endpoint under the name and return true. -/
def add_ip_node (m : RelayMap) (relay_info : PublicId)
    (relay_endpoint : Endpoint) : RelayMap × Bool :=
  if m.our_id = relay_info.name then (m, false)
  else if containsKey m.relay_map relay_info.name = false ∧
      MAX_RELAY ≤ m.relay_map.length then (m, false)
  else
    ({ m with relay_map :=
        entry_insert m.relay_map relay_info.name relay_info relay_endpoint },
      true)

/-- `RelayMap::drop_ip_node` (`src/relay.rs` lines 88-90): the body of the
source function is empty, so the map is returned unchanged. -/
def drop_ip_node (m : RelayMap) (ip_node_to_drop : NameType) : RelayMap :=
  m

/-- Association-list lookup, specifying where an endpoint was recorded. -/
def map_lookup (l : List (NameType × (PublicId × List Endpoint)))
    (name : NameType) : Option (PublicId × List Endpoint) :=
  match l with
  | [] => none
  | (k, v) :: t => if k = name then some v else map_lookup t name

/-- Run a sequence of `add_ip_node` calls, keeping only the map. -/
def run_adds (our_id : NameType) (ops : List (PublicId × Endpoint)) :
    RelayMap :=
  ops.foldl (fun m p => (add_ip_node m p.1 p.2).1) (new our_id)

end RelayMap

@[simp]
theorem containsKey_nil (name : NameType) :
    RelayMap.containsKey [] name = false := rfl

@[simp]
theorem containsKey_cons (k : NameType) (v : PublicId × List Endpoint)
    (t : List (NameType × (PublicId × List Endpoint))) (name : NameType) :
    RelayMap.containsKey ((k, v) :: t) name =
      (decide (k = name) || RelayMap.containsKey t name) := by
  simp [RelayMap.containsKey]

/-- `entry_insert` keeps the length when the key is present and adds one
entry when it is absent. -/
theorem entry_insert_length (l : List (NameType × (PublicId × List Endpoint)))
    (name : NameType) (info : PublicId) (ep : Endpoint) :
    (RelayMap.entry_insert l name info ep).length =
      if RelayMap.containsKey l name then l.length else l.length + 1 := by
  induction l with
  | nil => simp [RelayMap.entry_insert]
  | cons hd t ih =>
      obtain ⟨k, f, eps⟩ := hd
      by_cases hk : k = name
      · simp [RelayMap.entry_insert, hk]
      · cases hc : RelayMap.containsKey t name <;>
          simp [RelayMap.entry_insert, hk, hc, ih]

/-- One `add_ip_node` call preserves the `MAX_RELAY` bound on the number
of distinct relay names. -/
theorem add_ip_node_length_le (m : RelayMap) (info : PublicId)
    (ep : Endpoint) (h : m.relay_map.length ≤ MAX_RELAY) :
    ((RelayMap.add_ip_node m info ep).1).relay_map.length ≤ MAX_RELAY := by
  unfold RelayMap.add_ip_node
  split
  · exact h
  · split
    · exact h
    · rename_i hguard
      show (RelayMap.entry_insert m.relay_map info.name info ep).length ≤
        MAX_RELAY
      rw [entry_insert_length]
      cases hc : RelayMap.containsKey m.relay_map info.name
      · have hlt : ¬ MAX_RELAY ≤ m.relay_map.length :=
          fun hle => hguard ⟨hc, hle⟩
        simp only [hc, Bool.false_eq_true, if_false]
        omega
      · simpa [hc] using h

/-- After any sequence of `add_ip_node` calls from a map within the bound,
the bound still holds. -/
theorem run_adds_aux (ops : List (PublicId × Endpoint)) :
    ∀ m : RelayMap, m.relay_map.length ≤ MAX_RELAY →
      ((ops.foldl (fun m p => (RelayMap.add_ip_node m p.1 p.2).1) m)).relay_map.length ≤ MAX_RELAY := by
  induction ops with
  | nil => intro m h; simpa using h
  | cons op t ih =>
      intro m h
      simp only [List.foldl_cons]
      exact ih _ (add_ip_node_length_le m op.1 op.2 h)

/-- `entry_insert` records the endpoint under the name: after it, looking
up `name` finds an entry whose endpoint set holds `ep`. -/
theorem entry_insert_records (l : List (NameType × (PublicId × List Endpoint)))
    (name : NameType) (info : PublicId) (ep : Endpoint) :
    ∃ pr : PublicId × List Endpoint,
      RelayMap.map_lookup (RelayMap.entry_insert l name info ep) name = some pr ∧
        ep ∈ pr.2 := by
  induction l with
  | nil => exact ⟨(info, [ep]), by simp [RelayMap.entry_insert, RelayMap.map_lookup]⟩
  | cons hd t ih =>
      obtain ⟨k, f, eps⟩ := hd
      by_cases hk : k = name
      · refine ⟨(f, RelayMap.set_insert eps ep), ?_⟩
        constructor
        · simp [RelayMap.entry_insert, RelayMap.map_lookup, hk]
        · by_cases hmem : ep ∈ eps <;> simp [RelayMap.set_insert, hmem]
      · obtain ⟨pr, hpr, hmem⟩ := ih
        exact ⟨pr, by simp [RelayMap.entry_insert, RelayMap.map_lookup, hk, hpr], hmem⟩

/-- C5: `drop_ip_node` leaves the `RelayMap` completely unchanged — the
map itself, its `relay_map`, its `lookup_map` and its `our_id` all keep
their values; no relay contact is ever removed by calling it. -/
theorem c5_drop_ip_node_noop (m : RelayMap) (name : NameType) :
    RelayMap.drop_ip_node m name = m ∧
      (RelayMap.drop_ip_node m name).relay_map = m.relay_map ∧
      (RelayMap.drop_ip_node m name).lookup_map = m.lookup_map ∧
      (RelayMap.drop_ip_node m name).our_id = m.our_id :=
  ⟨rfl, rfl, rfl, rfl⟩

/-- C6: the bounded relay-capacity invariant and the case behaviour of
`add_ip_node`.  (1) Starting from `RelayMap::new`, every sequence of
`add_ip_node` calls leaves at most `MAX_RELAY` distinct relay names.
(2) When the identity's name equals our own id, the call returns `false`
and leaves the map unchanged.  (3) When the name is not already a key and
the map already holds at least `MAX_RELAY` entries, the call returns
`false` and leaves the map unchanged.  (4) In every other case the call
returns `true` and records the endpoint under the name.  Each case takes
its own inputs so that all hypotheses can be discharged together. -/
theorem c6_add_ip_node_bounded (our_id : NameType)
    (ops : List (PublicId × Endpoint))
    (m1 : RelayMap) (i1 : PublicId) (e1 : Endpoint)
    (m2 : RelayMap) (i2 : PublicId) (e2 : Endpoint)
    (m3 : RelayMap) (i3 : PublicId) (e3 : Endpoint) :
    ((RelayMap.run_adds our_id ops).relay_map.length ≤ MAX_RELAY) ∧
    (i1.name = m1.our_id →
      RelayMap.add_ip_node m1 i1 e1 = (m1, false)) ∧
    (i2.name ≠ m2.our_id →
      RelayMap.containsKey m2.relay_map i2.name = false →
      MAX_RELAY ≤ m2.relay_map.length →
      RelayMap.add_ip_node m2 i2 e2 = (m2, false)) ∧
    (i3.name ≠ m3.our_id →
      (RelayMap.containsKey m3.relay_map i3.name = true ∨
        m3.relay_map.length < MAX_RELAY) →
      ((RelayMap.add_ip_node m3 i3 e3).2 = true ∧
        ∃ pr : PublicId × List Endpoint,
          RelayMap.map_lookup (RelayMap.add_ip_node m3 i3 e3).1.relay_map
              i3.name = some pr ∧ e3 ∈ pr.2)) := by
  refine ⟨?_, ?_, ?_, ?_⟩
  · exact run_adds_aux ops (RelayMap.new our_id) (by simp [RelayMap.new])
  · intro h1
    simp [RelayMap.add_ip_node, h1]
  · intro hne hnc hlen
    rw [RelayMap.add_ip_node, if_neg (fun he => hne he.symm), if_pos ⟨hnc, hlen⟩]
  · intro hne hcase
    have hguard : ¬ (RelayMap.containsKey m3.relay_map i3.name = false ∧
        MAX_RELAY ≤ m3.relay_map.length) := by
      rcases hcase with hc | hlt
      · rintro ⟨hfalse, -⟩; rw [hc] at hfalse; cases hfalse
      · rintro ⟨-, hle⟩; omega
    rw [RelayMap.add_ip_node, if_neg (fun he => hne he.symm), if_neg hguard]
    exact ⟨rfl, entry_insert_records m3.relay_map i3.name i3 e3⟩

/-- Witness for C6: a run of six adds stays within the bound; adding our
own id is rejected; adding a new name to a full map is rejected; adding a
fresh name to the empty map succeeds and records the endpoint. -/
theorem c6_add_ip_node_bounded_witness :
    ((RelayMap.run_adds 9
        [(⟨0⟩, 0), (⟨1⟩, 1), (⟨2⟩, 2), (⟨3⟩, 3), (⟨4⟩, 4), (⟨5⟩, 5)]).relay_map.length ≤ MAX_RELAY) ∧
    (RelayMap.add_ip_node (RelayMap.new 3) ⟨3⟩ 0 = (RelayMap.new 3, false)) ∧
    (RelayMap.add_ip_node
        ⟨[(0, (⟨0⟩, [0])), (1, (⟨1⟩, [1])), (2, (⟨2⟩, [2])),
          (3, (⟨3⟩, [3])), (4, (⟨4⟩, [4]))], [], 9⟩ ⟨7⟩ 7 =
      (⟨[(0, (⟨0⟩, [0])), (1, (⟨1⟩, [1])), (2, (⟨2⟩, [2])),
          (3, (⟨3⟩, [3])), (4, (⟨4⟩, [4]))], [], 9⟩, false)) ∧
    ((RelayMap.add_ip_node (RelayMap.new 9) ⟨2⟩ 4).2 = true ∧
      ∃ pr : PublicId × List Endpoint,
        RelayMap.map_lookup (RelayMap.add_ip_node (RelayMap.new 9) ⟨2⟩ 4).1.relay_map
            2 = some pr ∧ 4 ∈ pr.2) := by
  obtain ⟨h1, h2, h3, h4⟩ := c6_add_ip_node_bounded 9
    [(⟨0⟩, 0), (⟨1⟩, 1), (⟨2⟩, 2), (⟨3⟩, 3), (⟨4⟩, 4), (⟨5⟩, 5)]
    (RelayMap.new 3) ⟨3⟩ 0
    ⟨[(0, (⟨0⟩, [0])), (1, (⟨1⟩, [1])), (2, (⟨2⟩, [2])),
      (3, (⟨3⟩, [3])), (4, (⟨4⟩, [4]))], [], 9⟩ ⟨7⟩ 7
    (RelayMap.new 9) ⟨2⟩ 4
  exact ⟨h1, h2 (by decide), h3 (by decide) (by decide) (by decide),
    h4 (by decide) (Or.inr (by decide))⟩

/-!
Embedding for the section-split claim C3.  The section state machine lives
in the crate's private `section` module, which is not among the sources;
only the split-threshold constant `RECOMMENDED_SECTION_SIZE` (with its doc
comment "This number also detemines when split happens - if both
post-split sections would have at least this number of nodes") is in
`src/lib.rs`.  The split operation itself is therefore modelled from the
spec. -/

/-- Errors of the membership state machine named by the spec. -/
inductive RoutingError where
  | InsufficientMembers
  | EmptyCloseNodes
deriving DecidableEq, Repr

/-- A section: its prefix (a bit string, field `prefix` in the spec's data
model) and its member-name set. -/
structure Section where
  prefix_bits : List Bool
  members : Finset NameType
deriving DecidableEq

/-- Modelled from the spec: `apply_split(bit_index)` of the section state
machine (its code is in the crate's private `section` module, absent from
the sources).  Members are partitioned by the name-space bit at
`bit_index`; the split is valid only when both hypothetical post-split
sections meet `RECOMMENDED_SECTION_SIZE`, and otherwise fails with
`InsufficientMembers`.  The embedding is a pure function: on failure it
returns only the error, so the input section is left unchanged. -/
def apply_split (s : Section) (bit_index : Nat) :
    Except RoutingError (Section × Section) :=
  let members0 := s.members.filter fun n => Nat.testBit n bit_index = false
  let members1 := s.members.filter fun n => Nat.testBit n bit_index = true
  if RECOMMENDED_SECTION_SIZE ≤ members0.card ∧
      RECOMMENDED_SECTION_SIZE ≤ members1.card then
    Except.ok ({ prefix_bits := s.prefix_bits ++ [false], members := members0 },
      { prefix_bits := s.prefix_bits ++ [true], members := members1 })
  else Except.error RoutingError.InsufficientMembers

/-- C3: a split is permitted iff both resulting post-split sections would
have at least `RECOMMENDED_SECTION_SIZE` = 60 members; when either side
would fall below the threshold the call fails with `InsufficientMembers`
(and, the operation being pure, the section is unchanged). -/
theorem c3_split_threshold (s : Section) (bit_index : Nat) :
    ((apply_split s bit_index).isOk = true ↔
      (RECOMMENDED_SECTION_SIZE ≤
          (s.members.filter fun n => Nat.testBit n bit_index = false).card ∧
        RECOMMENDED_SECTION_SIZE ≤
          (s.members.filter fun n => Nat.testBit n bit_index = true).card)) ∧
    (RECOMMENDED_SECTION_SIZE = 60) ∧
    (¬ (RECOMMENDED_SECTION_SIZE ≤
          (s.members.filter fun n => Nat.testBit n bit_index = false).card ∧
        RECOMMENDED_SECTION_SIZE ≤
          (s.members.filter fun n => Nat.testBit n bit_index = true).card) →
      apply_split s bit_index = Except.error RoutingError.InsufficientMembers) := by
  refine ⟨?_, rfl, ?_⟩
  · unfold apply_split
    dsimp only
    split
    · rename_i hcond
      exact iff_of_true (by simp [Except.isOk, Except.toBool]) hcond
    · rename_i hcond
      exact iff_of_false (by simp [Except.isOk, Except.toBool]) hcond
  · intro hno
    unfold apply_split
    dsimp only
    rw [if_neg hno]

/-- Witness for C3: a 3-member section cannot split at bit 0. -/
theorem c3_split_threshold_witness :
    apply_split ⟨[], {0, 1, 2}⟩ 0 =
      Except.error RoutingError.InsufficientMembers :=
  (c3_split_threshold ⟨[], {0, 1, 2}⟩ 0).2.2 (by decide)

/-!
Embedding of `src/routing_node_new.rs`.  The process-wide ambient RNG
(`rand::random::<MessageId>()` and the key generation inside
`types::Id::new()`) is embedded as explicit threading of a generator state
through each call — the standard shallow embedding of a global mutable
generator.  `types::Id`, `types::calculate_relocated_name` and
`Id::assign_relocated_name` live in the crate's `types` module, which is
not among the sources; they are modelled from the spec as indicated on
each definition. -/

/-- Modelled ambient RNG step standing for the process-wide generator
behind `rand::random` and key generation: a linear-congruential step
returning the drawn value and the advanced generator state. -/
def rand_next (s : Nat) : Nat × Nat :=
  let s2 := (s * 1103515245 + 12345) % 4294967296
  (s2, s2)

/-- Modelled from the spec: the hash used to derive names (stands in for
the SHA-512 digest of the real crate; a collision-free accumulator so that
distinctness of hashed names is provable). -/
def hash_name (l : List Nat) : Nat :=
  l.foldl (fun a n => 2 * a + n + 1) 1

/-- Modelled from the spec: `types::Id` — a node's signing key pair plus
the derived name in the XOR address space. -/
structure Id where
  sign_public_key : Nat
  sign_secret_key : Nat
  name : NameType
deriving DecidableEq, Repr

/-- Modelled from the spec: `types::Id::new()` generates a fresh key pair
from the ambient RNG and derives the node's name from the public key. -/
def Id.new (rng : Nat) : Id × Nat :=
  let pk := rand_next rng
  let sk := rand_next pk.2
  ({ sign_public_key := pk.1, sign_secret_key := sk.1,
     name := hash_name [pk.1] }, sk.2)

/-- `Id::get_name`. -/
def Id.get_name (id : Id) : NameType := id.name

/-- Modelled from the spec: `types::calculate_relocated_name` — the
"double hash" named by the `zero_node` doc comment, applied to the
close-node names together with the original name; fails on an empty
close-node list. -/
def calculate_relocated_name (close_nodes : List NameType)
    (original_name : NameType) : Except RoutingError NameType :=
  if close_nodes = [] then Except.error RoutingError.EmptyCloseNodes
  else Except.ok (hash_name [hash_name (close_nodes ++ [original_name])])

/-- Modelled from the spec: `Id::assign_relocated_name` rebinds the
identity to the relocated name, keeping its key pair (`zero_node` reads
the name back afterwards: "is equal to self_relocated_name"). -/
def Id.assign_relocated_name (id : Id) (relocated : NameType) : Id :=
  { id with name := relocated }

/-- The `RoutingNode` struct of `src/routing_node_new.rs` (fields that are
commented out in the source are omitted).  The opaque genesis object of
type parameter `G` is kept as a type parameter `γ`. -/
structure RoutingNode (γ : Type) where
  genesis : γ
  id : Id
  own_name : NameType
  next_message_id : Nat
  bootstrap_endpoint : Option Endpoint
  bootstrap_node_id : Option NameType

/-- `RoutingNode::new` (`src/routing_node_new.rs` lines 97-126): create a
fresh id from the ambient RNG, take its name, and draw a random first
message id.  The threaded `Nat` is the ambient generator state. -/
def RoutingNode.new {γ : Type} (genesis : γ) (rng : Nat) :
    RoutingNode γ × Nat :=
  let idp := Id.new rng
  let own_name := idp.1.get_name
  let mid := rand_next idp.2
  ({ genesis := genesis, id := idp.1, own_name := own_name,
     next_message_id := mid.1, bootstrap_endpoint := none,
     bootstrap_node_id := none }, mid.2)

/-- `RoutingNode::zero_node` (`src/routing_node_new.rs` lines 132-151):
create a fresh id, self-relocate its name with
`calculate_relocated_name(vec![original_name], &original_name)`, assign
the relocated name to the same id, and use the resulting name as
`own_name`. -/
def RoutingNode.zero_node {γ : Type} (genesis : γ) (rng : Nat) :
    RoutingNode γ × Nat :=
  let idp := Id.new rng
  let original_name := idp.1.get_name
  let self_relocated_name :=
    match calculate_relocated_name [original_name] original_name with
    | Except.ok n => n
    | Except.error _ => 0
    -- the source panics on this branch; it is unreachable because the
    -- close-node list passed in is nonempty
  let id := idp.1.assign_relocated_name self_relocated_name
  let own_name := id.get_name
  let mid := rand_next idp.2
  ({ genesis := genesis, id := id, own_name := own_name,
     next_message_id := mid.1, bootstrap_endpoint := none,
     bootstrap_node_id := none }, mid.2)

/-- Self-relocation through the modelled double hash is explicit:
`calculate_relocated_name [n] n` succeeds with `3 * n + 10`. -/
theorem calc_relocated_self (n : NameType) :
    calculate_relocated_name [n] n = Except.ok (3 * n + 10) := by
  have h : hash_name [hash_name [n, n]] = 3 * n + 10 := by
    simp [hash_name]
    omega
  simp [calculate_relocated_name, h]

/-- The name `zero_node` assigns. -/
theorem zero_node_own_name {γ : Type} (genesis : γ) (rng : Nat) :
    (RoutingNode.zero_node genesis rng).1.own_name =
      3 * (Id.new rng).1.name + 10 := by
  simp [RoutingNode.zero_node, Id.get_name, Id.assign_relocated_name,
    calc_relocated_self]

/-- Counterexample for C4 as stated: at generator state 0 (genesis `()`),
the identity held by the node built by `zero_node` has exactly the key
pair of the identity as originally generated — the relocation did not
produce a new key pair, contradicting the claim's "new NodeIdentity (new
key pair)" part. -/
theorem c4_zero_node_counterexample :
    ¬ ((RoutingNode.zero_node () 0).1.id.sign_public_key ≠
          (Id.new 0).1.sign_public_key ∨
        (RoutingNode.zero_node () 0).1.id.sign_secret_key ≠
          (Id.new 0).1.sign_secret_key) := by
  decide

/-- C4 (amended): for every genesis argument and generator state, the
node built by `zero_node` has `own_name` equal to the self-relocated name
successfully computed by `calculate_relocated_name` from the identity's
original name — and not equal to the original name itself — while the
relocation keeps the identity's existing key pair, rebinding it to the
relocated name. -/
theorem c4_zero_node_relocates {γ : Type} (genesis : γ) (rng : Nat) :
    calculate_relocated_name [(Id.new rng).1.name] ((Id.new rng).1.name) =
      Except.ok ((RoutingNode.zero_node genesis rng).1.own_name) ∧
    (RoutingNode.zero_node genesis rng).1.own_name ≠ (Id.new rng).1.name ∧
    (RoutingNode.zero_node genesis rng).1.id.name =
      (RoutingNode.zero_node genesis rng).1.own_name ∧
    (RoutingNode.zero_node genesis rng).1.id.sign_public_key =
      (Id.new rng).1.sign_public_key ∧
    (RoutingNode.zero_node genesis rng).1.id.sign_secret_key =
      (Id.new rng).1.sign_secret_key := by
  refine ⟨?_, ?_, ?_, ?_, ?_⟩
  · rw [zero_node_own_name, calc_relocated_self]
  · rw [zero_node_own_name]
    have h : ∀ k : Nat, 3 * k + 10 ≠ k := fun k => by omega
    exact h _
  · simp [RoutingNode.zero_node, Id.get_name, Id.assign_relocated_name]
  · simp [RoutingNode.zero_node, Id.assign_relocated_name]
  · simp [RoutingNode.zero_node, Id.assign_relocated_name]

/-- Counterexample for C7 as stated: `RoutingNode::new` takes no RNG
parameter; it reads the ambient generator, so two successive invocations
(the second seeing the generator state the first left behind) build nodes
with different `next_message_id`. -/
theorem c7_rng_counterexample :
    (RoutingNode.new () 0).1.next_message_id ≠
      (RoutingNode.new () ((RoutingNode.new () 0).2)).1.next_message_id := by
  decide

/-- C7 (amended): node construction is deterministic as a function of the
ambient generator state alone — for a fixed prior generator state the
constructed id, `own_name`, `next_message_id` and the advanced generator
state are identical across invocations and independent of the genesis
argument — but the code offers no injected RNG handle, and two successive
invocations observe different ambient states. -/
theorem c7_rng_determinism {γ δ : Type} (g1 : γ) (g2 : δ) (rng : Nat) :
    (RoutingNode.new g1 rng).1.id = (RoutingNode.new g2 rng).1.id ∧
    (RoutingNode.new g1 rng).1.own_name =
      (RoutingNode.new g2 rng).1.own_name ∧
    (RoutingNode.new g1 rng).1.next_message_id =
      (RoutingNode.new g2 rng).1.next_message_id ∧
    (RoutingNode.new g1 rng).2 = (RoutingNode.new g2 rng).2 :=
  ⟨rfl, rfl, rfl, rfl⟩

/-!
Embedding of the cbor `encode` / `decode` wrappers at the bottom of
`src/routing_node_new.rs`.  The cbor crate itself is an external
collaborator (the spec excludes serialization formats); it is embedded
through the interface the two wrappers use: a per-type item codec.  The
wrappers' own logic — encoding the one-element slice `[value]`, taking
the first decoded item, and mapping an exhausted stream to
`CborError::UnexpectedEOF` — is taken from the source. -/

/-- `cbor::CborError`, restricted to the variant the source constructs. -/
inductive CborError where
  | UnexpectedEOF
deriving DecidableEq, Repr

/-- `types::Bytes`. -/
abbrev Bytes := List Nat

/-- The cbor crate seen through the interface the wrappers use: for a type
that is `Encodable` and `Decodable`, `encode_item` yields the bytes of one
top-level cbor item and `decode_item` reads one item off the front of a
byte stream — returning the decoded value (or an error item) with the
remaining bytes, or `none` when the stream holds no further item. -/
structure CborCodec (α : Type) where
  encode_item : α → Bytes
  decode_item : Bytes → Option (Except CborError (α × Bytes))

/-- `encode` (`src/routing_node_new.rs` lines 210-214):
`Encoder::from_memory()`, `try!(enc.encode(&[value]))`,
`Ok(enc.into_bytes())` — each element of the slice `[value]` is encoded
as one top-level item; the modelled encoder produces no errors. -/
def encode {α : Type} (c : CborCodec α) (value : α) :
    Except CborError Bytes :=
  Except.ok ([value].foldl (fun acc v => acc ++ c.encode_item v) [])

/-- `decode` (`src/routing_node_new.rs` lines 216-222):
`Decoder::from_bytes(&bytes[..])` then `match dec.decode().next()`:
`Some(result) => result`, `None => Err(CborError::UnexpectedEOF)`. -/
def decode {α : Type} (c : CborCodec α) (bytes : Bytes) :
    Except CborError α :=
  match c.decode_item bytes with
  | some (Except.ok (v, _)) => Except.ok v
  | some (Except.error e) => Except.error e
  | none => Except.error CborError.UnexpectedEOF

/-- C9: for every type with a lawful item codec (the `Encodable` /
`Decodable` contract of the external cbor crate: decoding a stream that
starts with an encoded item yields that item and the rest of the stream,
and an empty stream holds no item), `decode` after `encode` returns the
original value, and decoding the empty byte sequence returns
`Err(CborError::UnexpectedEOF)`. -/
theorem c9_encode_decode_roundtrip {α : Type} (c : CborCodec α)
    (hitem : ∀ (v : α) (rest : Bytes),
      c.decode_item (c.encode_item v ++ rest) = some (Except.ok (v, rest)))
    (hempty : c.decode_item [] = none) :
    (∀ v : α, ∃ bytes : Bytes, encode c v = Except.ok bytes ∧
        decode c bytes = Except.ok v) ∧
    decode c [] = Except.error CborError.UnexpectedEOF := by
  constructor
  · intro v
    refine ⟨c.encode_item v, by simp [encode], ?_⟩
    have h := hitem v []
    rw [List.append_nil] at h
    simp [decode, h]
  · simp [decode, hempty]

/-- A concrete lawful item codec for `Nat`: one byte per value. -/
def natCodec : CborCodec Nat where
  encode_item n := [n]
  decode_item bytes :=
    match bytes with
    | [] => none
    | b :: rest => some (Except.ok (b, rest))

/-- Witness for C9: round-trip of `42` through the concrete codec, and
the `UnexpectedEOF` result on the empty byte sequence. -/
theorem c9_encode_decode_roundtrip_witness :
    (∃ bytes : Bytes, encode natCodec 42 = Except.ok bytes ∧
        decode natCodec bytes = Except.ok 42) ∧
    decode natCodec [] = Except.error CborError.UnexpectedEOF := by
  have h := c9_encode_decode_roundtrip natCodec
    (fun v rest => by simp [natCodec]) (by simp [natCodec])
  exact ⟨h.1 42, h.2⟩

end SnRouting
